import Mathlib

/-!
# Verification of the job queue and scheduler of `social-auto-poster`

Shallow embedding of `src/scheduler/queue-manager.ts` and
`src/scheduler/cron-jobs.ts`, together with the parts of
`src/utils/helpers.ts` and `src/types/index.ts` they use.

Modelling conventions:
* ISO timestamp strings are modelled as `Nat` milliseconds since the epoch;
  every comparison in the source goes through `new Date(s).getTime()`, which
  is monotone in the instant the string denotes.
* The opaque `any` payload `data` is modelled as a `String`.
* `generateId()` is modelled by passing the fresh id as an argument.
* Async handlers are modelled by a result function passed as an argument.
-/

namespace SocialAutoPoster

/-- `'high' | 'medium' | 'low'` (queue-manager.ts, `QueueJob.priority`). -/
inductive Priority where
  | high
  | medium
  | low
  deriving DecidableEq, Repr

/-- `'pending' | 'processing' | 'completed' | 'failed'` (queue-manager.ts). -/
inductive JobStatus where
  | pending
  | processing
  | completed
  | failed
  deriving DecidableEq, Repr

/-- The `QueueJob` record of queue-manager.ts (lines 14-25). -/
structure QueueJob where
  id : String
  type : String
  priority : Priority
  data : String
  createdAt : Nat
  attempts : Nat
  maxAttempts : Nat
  nextRetry : Option Nat
  status : JobStatus
  error : Option String
  deriving DecidableEq, Repr

/-- The `ApiResponse<T>` interface of types/index.ts; optional fields are
`Option`s. -/
structure ApiResponse (T : Type) where
  data : Option T
  error : Option String
  message : String
  successful : Bool
  deriving DecidableEq, Repr

/-- `createApiResponse` of utils/helpers.ts: builds the response record;
`data` is omitted (`none`) when the caller passes `undefined`. -/
def createApiResponse {T : Type} (successful : Bool) (message : String)
    (data : Option T) (error : Option String) : ApiResponse T :=
  { data := data, error := error, message := message, successful := successful }

/-- The `priorityOrder` table of `findInsertPosition`
(queue-manager.ts line 393): high=3, medium=2, low=1. -/
def priorityOrder : Priority → Nat
  | .high => 3
  | .medium => 2
  | .low => 1

/-- `findInsertPosition` (queue-manager.ts lines 392-404): first index whose
resident job has strictly lower weight than the new priority, else the
queue length.  (The `?? 'low'` fallback of line 397 is dead inside the
bounds-checked loop.) -/
def findInsertPosition (queue : List QueueJob) (priority : Priority) : Nat :=
  match queue with
  | [] => 0
  | j :: rest =>
    if priorityOrder j.priority < priorityOrder priority then 0
    else findInsertPosition rest priority + 1

/-- The `jobData` argument of `addJob` (queue-manager.ts lines 99-104). -/
structure JobData where
  type : String
  priority : Priority
  data : String
  maxAttempts : Option Nat
  deriving DecidableEq, Repr

/-- The job literal built by `addJob` (queue-manager.ts lines 106-115).
`maxAttempts := jobData.maxAttempts || 3`: a missing or zero (falsy) value
yields 3. -/
def mkJob (id : String) (now : Nat) (jobType : String) (jobData : JobData) :
    QueueJob :=
  { id := id
    type := jobType
    priority := jobData.priority
    data := jobData.data
    createdAt := now
    attempts := 0
    maxAttempts := match jobData.maxAttempts with
      | some m => if m = 0 then 3 else m
      | none => 3
    nextRetry := none
    status := .pending
    error := none }

/-- `addJob` (queue-manager.ts lines 99-139): builds the job, splices it in
at `findInsertPosition`, and returns the success response carrying the job
id.  The fresh id and the current time are passed in. -/
def addJob (queue : List QueueJob) (id : String) (now : Nat)
    (jobType : String) (jobData : JobData) :
    List QueueJob × ApiResponse String :=
  let job := mkJob id now jobType jobData
  (queue.insertIdx (findInsertPosition queue job.priority) job,
   createApiResponse true "Job added to queue" (some job.id) none)

/-- The eligibility test of `processQueue` (queue-manager.ts lines 171-174):
`job.status === 'pending' && (!job.nextRetry || new Date(job.nextRetry) <= new Date())`. -/
def isEligible (now : Nat) (job : QueueJob) : Bool :=
  job.status == .pending &&
    (match job.nextRetry with
     | none => true
     | some t => t ≤ now)

/-- The `this.queue.find(...)` of `processQueue`: first eligible pending job. -/
def findNextJob (now : Nat) (queue : List QueueJob) : Option QueueJob :=
  queue.find? (isEligible now)

/-- The selection performed by one `processQueue` wake (lines 165-178):
`if (!this.isProcessing || this.queue.length === 0) return;` then the find.
`isActive` is the service's `isProcessing` flag, set in `start()` and
cleared in `stop()`. -/
def processQueueSelect (isActive : Bool) (now : Nat)
    (queue : List QueueJob) : Option QueueJob :=
  if !isActive || queue.length == 0 then none
  else findNextJob now queue

/-- `executeJob` (queue-manager.ts lines 211-228): the switch over
`job.type`.  The four registered handlers call external collaborators, so
their results are a parameter `handlerResult`; the default branch returns
the unsuccessful "Unknown job type" response. -/
def executeJob (handlerResult : String → ApiResponse Unit)
    (job : QueueJob) : ApiResponse Unit :=
  if job.type == "main-posting" then handlerResult "main-posting"
  else if job.type == "health-check" then handlerResult "health-check"
  else if job.type == "cleanup" then handlerResult "cleanup"
  else if job.type == "backup" then handlerResult "backup"
  else createApiResponse false ("Unknown job type: " ++ job.type) none
    (some "Job type not supported")

/-- `handleJobFailure` (queue-manager.ts lines 362-387).  The job's
`attempts` has already been incremented by `processQueue`.  At or past
`maxAttempts` the job becomes `failed`; otherwise it returns to `pending`
with `nextRetry = now + 2^attempts * 60 * 1000` milliseconds
("Exponential backoff" comment, line 375). -/
def handleJobFailure (now : Nat) (job : QueueJob) (err : String) : QueueJob :=
  if job.maxAttempts ≤ job.attempts then
    { job with error := some err, status := .failed }
  else
    { job with error := some err, status := .pending,
               nextRetry := some (now + 2 ^ job.attempts * 60 * 1000) }

/-- The error string `result.error || 'Unknown error'` of
queue-manager.ts line 197. -/
def failureMessage (resultError : Option String) : String :=
  match resultError with
  | some e => if e = "" then "Unknown error" else e
  | none => "Unknown error"

/-- The per-job effect of one full executor cycle on the selected job
(queue-manager.ts lines 180-202): mark `processing`, increment `attempts`,
dispatch through `executeJob`, then either complete or run
`handleJobFailure`. -/
def runJob (handlerResult : String → ApiResponse Unit) (now : Nat)
    (job : QueueJob) : QueueJob :=
  let j := { job with status := JobStatus.processing,
                      attempts := job.attempts + 1 }
  let result := executeJob handlerResult j
  if result.successful then { j with status := .completed }
  else handleJobFailure now j (failureMessage result.error)

/-- The retention filter of `cleanupOldJobs` (queue-manager.ts lines
416-421): keep `pending`, `processing`, `failed`, and `completed` jobs
younger than 24 hours.  The source compares
`createdAt > Date.now() - 24*60*60*1000`; over the integers this is
`createdAt + 24h > now`, written that way to avoid truncated `Nat`
subtraction. -/
def keepJob (now : Nat) (job : QueueJob) : Bool :=
  job.status == .pending || job.status == .processing ||
  job.status == .failed ||
  (job.status == .completed && now < job.createdAt + 24 * 60 * 60 * 1000)

/-- Stable insertion (descending by `createdAt`): the element goes before
the first resident with a key less than or equal to its own, so an
earlier-listed job precedes equal-keyed later ones. -/
def insertDesc (x : QueueJob) : List QueueJob → List QueueJob
  | [] => [x]
  | y :: ys =>
    if y.createdAt ≤ x.createdAt then x :: y :: ys
    else y :: insertDesc x ys

/-- The source's `jobsToKeep.sort((a, b) => b.createdAt - a.createdAt)`
(queue-manager.ts line 425): `Array.prototype.sort` is stable in Node, so
its result is the unique stable descending-by-`createdAt` reordering,
computed here by stable insertion sort. -/
def sortByCreatedAtDesc (l : List QueueJob) : List QueueJob :=
  l.foldr insertDesc []

/-- `cleanupOldJobs` (queue-manager.ts lines 409-430), `maxJobs = 100`.
If the queue is over the cap, filter by `keepJob`; if the kept set is
still over the cap, stable-sort it by `createdAt` descending and keep the
first 100. -/
def cleanupOldJobs (now : Nat) (queue : List QueueJob) : List QueueJob :=
  if queue.length ≤ 100 then queue
  else
    let jobsToKeep := queue.filter (keepJob now)
    if 100 < jobsToKeep.length then
      (sortByCreatedAtDesc jobsToKeep).take 100
    else jobsToKeep

/-- Replace the first job satisfying `isEligible now` — the one
`Array.prototype.find` returned and `processQueue` mutates in place. -/
def replaceFirstEligible (now : Nat) (f : QueueJob → QueueJob) :
    List QueueJob → List QueueJob
  | [] => []
  | j :: rest =>
    if isEligible now j then f j :: rest
    else j :: replaceFirstEligible now f rest

/-- One whole `processQueue` cycle on the queue (lines 165-206): the two
guards, the find, the in-place update of the selected job (the first
eligible one), and the retention pass. -/
def processQueue (handlerResult : String → ApiResponse Unit)
    (isActive : Bool) (now : Nat) (queue : List QueueJob) :
    List QueueJob :=
  if !isActive || queue.length == 0 then queue
  else
    match queue.find? (isEligible now) with
    | none => queue
    | some _ =>
      cleanupOldJobs now
        (replaceFirstEligible now (runJob handlerResult now) queue)

/-- `getJob` (queue-manager.ts lines 435-437). -/
def getJob (queue : List QueueJob) (jobId : String) : Option QueueJob :=
  queue.find? (fun job => job.id == jobId)

/-- The record returned by `getQueueStatus` (queue-manager.ts lines 144-160). -/
structure QueueStatus where
  totalJobs : Nat
  pendingJobs : Nat
  processingJobs : Nat
  completedJobs : Nat
  failedJobs : Nat
  isActive : Bool
  deriving DecidableEq, Repr

/-- `getQueueStatus` (queue-manager.ts lines 144-160). -/
def getQueueStatus (isActive : Bool) (queue : List QueueJob) : QueueStatus :=
  { totalJobs := queue.length
    pendingJobs := (queue.filter (fun j => j.status == .pending)).length
    processingJobs := (queue.filter (fun j => j.status == .processing)).length
    completedJobs := (queue.filter (fun j => j.status == .completed)).length
    failedJobs := (queue.filter (fun j => j.status == .failed)).length
    isActive := isActive }

/-- `cancelJob` (queue-manager.ts lines 452-471): not found, `processing`
and terminal jobs are rejected without touching the queue; a `pending` job
is removed by filtering its id out. -/
def cancelJob (queue : List QueueJob) (jobId : String) :
    List QueueJob × ApiResponse Bool :=
  match queue.find? (fun j => j.id == jobId) with
  | none =>
    (queue, createApiResponse false "Job not found" (some false)
      (some "Job ID does not exist"))
  | some job =>
    if job.status == .processing then
      (queue, createApiResponse false "Cannot cancel processing job"
        (some false) (some "Job is currently being processed"))
    else if job.status == .completed || job.status == .failed then
      (queue, createApiResponse false "Job already finished" (some false)
        (some "Job has already completed or failed"))
    else
      (queue.filter (fun j => !(j.id == jobId)),
       createApiResponse true "Job cancelled successfully" (some true) none)

/-! ## Scheduler (`src/scheduler/cron-jobs.ts`) -/

/-- The `JobInfo` record of cron-jobs.ts (lines 13-18).  The
`cron.ScheduledTask | null` field is modelled by whether a timer is
currently armed. -/
structure JobInfo where
  name : String
  schedule : String
  taskActive : Bool
  lastRun : Option Nat
  deriving DecidableEq, Repr

/-- State of `CronJobsService`: the `jobs` map (as an association list in
insertion order) and the `isRunning` flag. -/
structure CronState where
  jobs : List JobInfo
  isRunning : Bool
  deriving DecidableEq, Repr

/-- `this.jobs.get(name)` on the model. -/
def cronGetJob (st : CronState) (name : String) : Option JobInfo :=
  st.jobs.find? (fun j => j.name == name)

/-- In-place mutation of the `'main-posting'` entry of the `jobs` map. -/
def setMainJob (st : CronState) (f : JobInfo → JobInfo) : CronState :=
  { st with
    jobs := st.jobs.map (fun j => if j.name == "main-posting" then f j else j) }

/-- `scheduleMainJob` (cron-jobs.ts lines 163-208), restricted to its
effect on the scheduler state: if the entry exists and its cron expression
validates, arm the task; on a failed validation it only logs and returns.
`validate` models `cron.validate` of the external node-cron package; the
`RUN_NOW` branch and the enqueue performed by the armed timer touch only
the job queue, not this state. -/
def scheduleMainJob (validate : String → Bool) (st : CronState) : CronState :=
  match cronGetJob st "main-posting" with
  | none => st
  | some jobInfo =>
    if !validate jobInfo.schedule then st
    else setMainJob st (fun j => { j with taskActive := true })

/-- `updateMainSchedule` (cron-jobs.ts lines 328-358): reject an invalid
expression before touching anything; otherwise stop the old task, replace
the expression and re-arm via `scheduleMainJob`. -/
def updateMainSchedule (validate : String → Bool) (st : CronState)
    (newSchedule : String) : CronState × ApiResponse Bool :=
  if !validate newSchedule then
    (st, createApiResponse false "Invalid cron schedule" (some false)
      (some "Schedule format is invalid"))
  else
    match cronGetJob st "main-posting" with
    | none =>
      (st, createApiResponse false "Main job not found" (some false)
        (some "Job not initialized"))
    | some _ =>
      let st1 := setMainJob st (fun j => { j with taskActive := false })
      let st2 := setMainJob st1 (fun j => { j with schedule := newSchedule })
      (scheduleMainJob validate st2,
       createApiResponse true "Schedule updated successfully" (some true) none)

/-- `triggerMainJob` (cron-jobs.ts lines 307-323): calls
`queueManager.addJob('main-posting-manual', { type: 'main-posting',
priority: 'high', data: { manual: true } })` — note that `addJob` takes its
job type from its FIRST argument, so the enqueued job's `type` is
`'main-posting-manual'` — and returns the boolean success response, not the
new job's id. -/
def triggerMainJob (queue : List QueueJob) (id : String) (now : Nat) :
    List QueueJob × ApiResponse Bool :=
  let jd : JobData :=
    { type := "main-posting", priority := .high,
      data := "manual:true", maxAttempts := none }
  let queue1 := (addJob queue id now "main-posting-manual" jd).1
  (queue1, createApiResponse true "Main job triggered manually" (some true) none)

/-! ## Concrete fixtures -/

/-- A baseline pending medium-priority job used in concrete instances. -/
def sampleJob : QueueJob :=
  { id := "j", type := "t", priority := .medium, data := "",
    createdAt := 0, attempts := 0, maxAttempts := 3, nextRetry := none,
    status := .pending, error := none }

/-- A handler table on which every registered handler fails. -/
def failHandler : String → ApiResponse Unit :=
  fun _ => createApiResponse false "handler failed" none (some "boom")

/-! ## Queue ordering invariants -/

/-- Priority weights are non-increasing along the queue array — the shape
`findInsertPosition` insertion establishes and maintains. -/
def sortedByPriority (queue : List QueueJob) : Prop :=
  queue.Pairwise (fun a b => priorityOrder b.priority ≤ priorityOrder a.priority)

/-- Within one priority tier, `createdAt` is non-decreasing along the
array: equal-priority jobs appear in enqueue order. -/
def fifoWithinTier (queue : List QueueJob) : Prop :=
  queue.Pairwise (fun a b => a.priority = b.priority → a.createdAt ≤ b.createdAt)

theorem findInsertPosition_le_length (queue : List QueueJob) (p : Priority) :
    findInsertPosition queue p ≤ queue.length := by
  induction queue with
  | nil => simp [findInsertPosition]
  | cons a rest ih =>
    simp only [findInsertPosition, List.length_cons]
    split
    · omega
    · omega

theorem findInsertPosition_eq_findIdx (queue : List QueueJob) (p : Priority) :
    findInsertPosition queue p =
      queue.findIdx (fun j => priorityOrder j.priority < priorityOrder p) := by
  induction queue with
  | nil => rfl
  | cons a rest ih =>
    rw [findInsertPosition, List.findIdx_cons]
    by_cases h : priorityOrder a.priority < priorityOrder p
    · simp [h]
    · simp [h, ih]

theorem findNextJob_is_max (now : Nat) :
    ∀ queue : List QueueJob, sortedByPriority queue → fifoWithinTier queue →
    ∀ j ∈ queue, isEligible now j = true →
    ∃ sel, findNextJob now queue = some sel ∧ sel ∈ queue ∧
      isEligible now sel = true ∧
      ∀ k ∈ queue, isEligible now k = true →
        priorityOrder k.priority ≤ priorityOrder sel.priority ∧
        (k.priority = sel.priority → sel.createdAt ≤ k.createdAt) := by
  intro queue
  induction queue with
  | nil => intro _ _ j hj; simp at hj
  | cons a rest ih =>
    intro hsort hfifo j hj helig
    simp only [sortedByPriority, List.pairwise_cons] at hsort
    simp only [fifoWithinTier, List.pairwise_cons] at hfifo
    by_cases ha : isEligible now a = true
    · refine ⟨a, ?_, List.mem_cons_self a rest, ha, ?_⟩
      · simp [findNextJob, List.find?_cons_of_pos _ ha]
      · intro k hk hkelig
        rcases List.mem_cons.mp hk with rfl | hk'
        · exact ⟨le_refl _, fun _ => le_refl _⟩
        · exact ⟨hsort.1 k hk', fun hp => hfifo.1 k hk' hp.symm⟩
    · have hj' : j ∈ rest := by
        rcases List.mem_cons.mp hj with rfl | h
        · exact absurd helig ha
        · exact h
      obtain ⟨sel, hfind, hmem, hselig, hmax⟩ :=
        ih hsort.2 hfifo.2 j hj' helig
      refine ⟨sel, ?_, List.mem_cons_of_mem _ hmem, hselig, ?_⟩
      · rw [findNextJob, List.find?_cons_of_neg _ (by simpa using ha)]
        exact hfind
      · intro k hk hkelig
        rcases List.mem_cons.mp hk with rfl | hk'
        · exact absurd hkelig ha
        · exact hmax k hk' hkelig

theorem insert_preserves_sorted (queue : List QueueJob) (job : QueueJob)
    (hsort : sortedByPriority queue) :
    sortedByPriority
      (queue.insertIdx (findInsertPosition queue job.priority) job) := by
  induction queue with
  | nil => simp [findInsertPosition, sortedByPriority]
  | cons a rest ih =>
    simp only [sortedByPriority, List.pairwise_cons] at hsort
    rw [findInsertPosition]
    split
    · rename_i h
      rw [List.insertIdx_zero]
      simp only [sortedByPriority, List.pairwise_cons]
      refine ⟨?_, hsort.1, hsort.2⟩
      intro b hb
      rcases List.mem_cons.mp hb with rfl | hb'
      · exact le_of_lt h
      · exact le_trans (hsort.1 b hb') (le_of_lt h)
    · rename_i h
      rw [List.insertIdx_succ_cons]
      simp only [sortedByPriority, List.pairwise_cons]
      refine ⟨?_, ih hsort.2⟩
      intro b hb
      rcases (List.mem_insertIdx
          (findInsertPosition_le_length rest job.priority)).mp hb with rfl | hb'
      · omega
      · exact hsort.1 b hb'

theorem insert_preserves_fifo (queue : List QueueJob) (job : QueueJob)
    (hsort : sortedByPriority queue) (hfifo : fifoWithinTier queue)
    (hnow : ∀ k ∈ queue, k.createdAt ≤ job.createdAt) :
    fifoWithinTier
      (queue.insertIdx (findInsertPosition queue job.priority) job) := by
  induction queue with
  | nil => simp [findInsertPosition, fifoWithinTier]
  | cons a rest ih =>
    simp only [sortedByPriority, List.pairwise_cons] at hsort
    simp only [fifoWithinTier, List.pairwise_cons] at hfifo
    rw [findInsertPosition]
    split
    · rename_i h
      rw [List.insertIdx_zero]
      simp only [fifoWithinTier, List.pairwise_cons]
      refine ⟨?_, hfifo.1, hfifo.2⟩
      intro b hb hpeq
      exfalso
      rcases List.mem_cons.mp hb with rfl | hb'
      · rw [hpeq] at h; exact lt_irrefl _ h
      · have hba := hsort.1 b hb'
        rw [hpeq] at h
        omega
    · rename_i h
      rw [List.insertIdx_succ_cons]
      simp only [fifoWithinTier, List.pairwise_cons]
      refine ⟨?_, ih hsort.2 hfifo.2
        (fun k hk => hnow k (List.mem_cons_of_mem _ hk))⟩
      intro b hb hpeq
      rcases (List.mem_insertIdx
          (findInsertPosition_le_length rest job.priority)).mp hb with rfl | hb'
      · exact hnow a (List.mem_cons_self a rest)
      · exact hfifo.1 b hb' hpeq

/-! ## Claim C1 -/

/-- High-priority job data for the C1 counterexample trace. -/
def highJd : JobData :=
  { type := "t", priority := .high, data := "", maxAttempts := none }

/-- Low-priority job data for the C1 counterexample trace. -/
def lowJd : JobData :=
  { type := "t", priority := .low, data := "", maxAttempts := none }

/-- A queue state reached by running the code itself: 60 high-priority
jobs enqueued at times 0..59, then 41 low-priority jobs at times 60..100
(101 jobs, one over the cap), then one `processQueue` cycle at time 100.
The dispatched job fails, and the retention pass that closes the cycle
takes the over-cap branch: it re-sorts the queue by `createdAt`
descending, putting the newest (low-priority) jobs first. -/
def reachedQueue : List QueueJob :=
  let q60 := (List.range 60).foldl
    (fun q i => (addJob q (toString i) i "t" highJd).1) []
  let q101 := (List.range 41).foldl
    (fun q i => (addJob q (toString (60 + i)) (60 + i) "t" lowJd).1) q60
  processQueue failHandler true 100 q101

set_option maxRecDepth 10000 in
/-- C1 counterexample: in the reachable state `reachedQueue` the queue
still holds eligible pending high-priority jobs, yet the dequeue find
selects a low-priority job (weight 1 < weight 3) — the over-cap retention
re-sort has destroyed the priority order, so the selection property does
not hold at every queue state. -/
theorem c1_counterexample :
    (reachedQueue.any
      (fun j => isEligible 101 j && j.priority == Priority.high) = true) ∧
    ((findNextJob 101 reachedQueue).map QueueJob.priority =
      some Priority.low) ∧
    priorityOrder Priority.low < priorityOrder Priority.high := by
  decide

/-- C1 amended: for every priority-sorted, FIFO-ordered queue state (the
shape insertion establishes and maintains — see the last two conjuncts —
and which persists until the retention pass's over-cap re-sort, which can
break it), whenever at least one pending job is eligible (`nextRetry`
absent or at most `now`), `processQueue`'s find selects an eligible
pending job of maximal priority weight (high=3, medium=2, low=1), and
among equal-priority eligible jobs one with the least `createdAt` (FIFO
within a tier); moreover `findInsertPosition` is exactly the index of the
first resident job of strictly lower weight (else the length, i.e.
append), and this insertion preserves both orderings. -/
theorem c1_dequeue_priority_fifo (now : Nat) (queue : List QueueJob)
    (hsort : sortedByPriority queue) (hfifo : fifoWithinTier queue) :
    (∀ j ∈ queue, isEligible now j = true →
      ∃ sel, findNextJob now queue = some sel ∧ sel ∈ queue ∧
        isEligible now sel = true ∧
        ∀ k ∈ queue, isEligible now k = true →
          priorityOrder k.priority ≤ priorityOrder sel.priority ∧
          (k.priority = sel.priority → sel.createdAt ≤ k.createdAt)) ∧
    (∀ p, findInsertPosition queue p =
        queue.findIdx (fun j => priorityOrder j.priority < priorityOrder p)) ∧
    (∀ job : QueueJob,
        sortedByPriority
          (queue.insertIdx (findInsertPosition queue job.priority) job)) ∧
    (∀ job : QueueJob, (∀ k ∈ queue, k.createdAt ≤ job.createdAt) →
        fifoWithinTier
          (queue.insertIdx (findInsertPosition queue job.priority) job)) := by
  refine ⟨findNextJob_is_max now queue hsort hfifo,
    fun p => findInsertPosition_eq_findIdx queue p,
    fun job => insert_preserves_sorted queue job hsort,
    fun job hnow => insert_preserves_fifo queue job hsort hfifo hnow⟩

/-- A high-priority eligible job, enqueued after `wLow`. -/
def wHigh : QueueJob := { sampleJob with id := "w-high", priority := .high, createdAt := 2 }

/-- A low-priority eligible job. -/
def wLow : QueueJob := { sampleJob with id := "w-low", priority := .low, createdAt := 1 }

/-- Witness for C1: on the concrete sorted queue `[wHigh, wLow]` at time 5,
the find selects the high-priority job and it dominates every eligible job. -/
theorem c1_dequeue_priority_fifo_witness :
    ∃ sel, findNextJob 5 [wHigh, wLow] = some sel ∧ sel ∈ [wHigh, wLow] ∧
      isEligible 5 sel = true ∧
      ∀ k ∈ [wHigh, wLow], isEligible 5 k = true →
        priorityOrder k.priority ≤ priorityOrder sel.priority ∧
        (k.priority = sel.priority → sel.createdAt ≤ k.createdAt) :=
  (c1_dequeue_priority_fifo 5 [wHigh, wLow]
      (by unfold sortedByPriority; decide)
      (by unfold fifoWithinTier; decide)).1
    wHigh (by decide) (by decide)

/-! ## Claim C2 -/

/-- A job currently marked `processing` (mid-execution). -/
def procJob : QueueJob :=
  { sampleJob with id := "in-flight", status := .processing, attempts := 1 }

/-- A pending job waiting behind `procJob`. -/
def pendJob : QueueJob := { sampleJob with id := "waiting", createdAt := 1 }

/-- C2 counterexample: with the manager started (`isProcessing = true`) and
a job already in status `processing`, an executor wake still selects a new
pending job — the guard of `processQueue` tests only the manager-running
flag, not whether a job is in flight, so the claimed re-entrancy guard
does not exist and a second job can enter `processing`. -/
theorem c2_counterexample :
    procJob.status = JobStatus.processing ∧
    pendJob.status = JobStatus.pending ∧
    processQueueSelect true 0 [procJob, pendJob] = some pendJob := by
  decide

/-- C2 amended: a wake that happens while the manager is started selects
the first eligible pending job whenever one exists — even if another job
currently has status `processing`.  (What does hold: the selected job
itself is always `pending`, never the in-flight one.) -/
theorem c2_wake_selects_despite_processing (now : Nat)
    (queue : List QueueJob) (j : QueueJob) (hj : j ∈ queue)
    (helig : isEligible now j = true) :
    ∃ sel, processQueueSelect true now queue = some sel ∧
      sel.status = JobStatus.pending ∧ isEligible now sel = true := by
  have hne : queue.length ≠ 0 := by
    cases queue with
    | nil => cases hj
    | cons a rest => simp
  have hsome : (queue.find? (isEligible now)).isSome := by
    rw [List.find?_isSome]
    exact ⟨j, hj, helig⟩
  obtain ⟨sel, hsel⟩ := Option.isSome_iff_exists.mp hsome
  have hselig : isEligible now sel = true := List.find?_some hsel
  have hpend : sel.status = JobStatus.pending := by
    have := hselig
    unfold isEligible at this
    have hand := (Bool.and_eq_true _ _).mp this
    exact beq_iff_eq.mp hand.1
  refine ⟨sel, ?_, hpend, hselig⟩
  have hnil : queue ≠ [] := by intro h; subst h; cases hj
  rw [processQueueSelect]
  simp [findNextJob, hsel, hnil]

/-- Witness for C2's amended theorem: applied to the concrete queue in
which `procJob` is mid-execution. -/
theorem c2_wake_selects_despite_processing_witness :
    ∃ sel, processQueueSelect true 0 [procJob, pendJob] = some sel ∧
      sel.status = JobStatus.pending ∧ isEligible 0 sel = true :=
  c2_wake_selects_despite_processing 0 [procJob, pendJob] pendJob
    (by decide) (by decide)

/-! ## Claim C3 -/

theorem runJob_fail_retry (handlerResult : String → ApiResponse Unit)
    (now : Nat) (j : QueueJob) (hty : j.type = "main-posting")
    (hfail : (handlerResult "main-posting").successful = false)
    (hlt : j.attempts + 1 < j.maxAttempts) :
    runJob handlerResult now j =
      { j with
        status := JobStatus.pending
        attempts := j.attempts + 1
        error := some (failureMessage (handlerResult "main-posting").error)
        nextRetry := some (now + 2 ^ (j.attempts + 1) * 60 * 1000) } := by
  have e1 : executeJob handlerResult
      { j with status := JobStatus.processing, attempts := j.attempts + 1 } =
      handlerResult "main-posting" := by
    simp [executeJob, hty]
  rw [runJob]
  simp only [e1, hfail, if_false, Bool.false_eq_true]
  rw [handleJobFailure]
  simp only [if_neg (by omega : ¬ j.maxAttempts ≤ j.attempts + 1)]

theorem runJob_fail_terminal (handlerResult : String → ApiResponse Unit)
    (now : Nat) (j : QueueJob) (hty : j.type = "main-posting")
    (hfail : (handlerResult "main-posting").successful = false)
    (hge : j.maxAttempts ≤ j.attempts + 1) :
    runJob handlerResult now j =
      { j with
        status := JobStatus.failed
        attempts := j.attempts + 1
        error := some (failureMessage (handlerResult "main-posting").error) } := by
  have e1 : executeJob handlerResult
      { j with status := JobStatus.processing, attempts := j.attempts + 1 } =
      handlerResult "main-posting" := by
    simp [executeJob, hty]
  rw [runJob]
  simp only [e1, hfail, if_false, Bool.false_eq_true]
  rw [handleJobFailure]
  simp only [if_pos hge]

/-- A registered-type job on its first attempt
(`attempts = 0`, `maxAttempts = 3`). -/
def retryJob : QueueJob := { sampleJob with id := "retry", type := "main-posting" }

/-- C3 counterexample: after the first failed attempt the code schedules
the retry at `now + 120` time-units (`2^1 * 60` seconds; milliseconds in
the model), not the claimed `now + 60`. -/
theorem c3_counterexample :
    retryJob.attempts = 0 ∧ retryJob.maxAttempts = 3 ∧
    (runJob failHandler 0 retryJob).attempts = 1 ∧
    (runJob failHandler 0 retryJob).nextRetry = some (120 * 1000) ∧
    (120 * 1000 : Nat) ≠ 60 * 1000 := by
  decide

/-- C3 amended: for a `maxAttempts = 3` job whose handler fails every
attempt, `handleJobFailure` sets `nextRetry` to now plus 120 and 240
time-units (`delay = 60 * 2^attempts` with the already-incremented attempt
counter) after failed attempts 1 and 2 respectively, and after the 3rd
failed attempt the job transitions to `failed` — exactly then, with no new
`nextRetry` scheduled. -/
theorem c3_backoff_120_240_failed (handlerResult : String → ApiResponse Unit)
    (hfail : (handlerResult "main-posting").successful = false)
    (t1 t2 t3 : Nat) (j : QueueJob) (hty : j.type = "main-posting")
    (hatt : j.attempts = 0) (hmax : j.maxAttempts = 3) :
    (runJob handlerResult t1 j).status = JobStatus.pending ∧
    (runJob handlerResult t1 j).attempts = 1 ∧
    (runJob handlerResult t1 j).nextRetry = some (t1 + 120 * 1000) ∧
    (runJob handlerResult t2 (runJob handlerResult t1 j)).status = JobStatus.pending ∧
    (runJob handlerResult t2 (runJob handlerResult t1 j)).attempts = 2 ∧
    (runJob handlerResult t2 (runJob handlerResult t1 j)).nextRetry = some (t2 + 240 * 1000) ∧
    (runJob handlerResult t3 (runJob handlerResult t2 (runJob handlerResult t1 j))).status = JobStatus.failed ∧
    (runJob handlerResult t3 (runJob handlerResult t2 (runJob handlerResult t1 j))).attempts = 3 ∧
    (runJob handlerResult t3 (runJob handlerResult t2 (runJob handlerResult t1 j))).nextRetry =
      (runJob handlerResult t2 (runJob handlerResult t1 j)).nextRetry := by
  have h1 := runJob_fail_retry handlerResult t1 j hty hfail (by omega)
  rw [h1]
  have h2 := runJob_fail_retry handlerResult t2
    { j with
      status := JobStatus.pending
      attempts := j.attempts + 1
      error := some (failureMessage (handlerResult "main-posting").error)
      nextRetry := some (t1 + 2 ^ (j.attempts + 1) * 60 * 1000) }
    (by simpa using hty) hfail (by simp [hatt, hmax])
  rw [h2]
  have h3 := runJob_fail_terminal handlerResult t3
    { { j with
        status := JobStatus.pending
        attempts := j.attempts + 1
        error := some (failureMessage (handlerResult "main-posting").error)
        nextRetry := some (t1 + 2 ^ (j.attempts + 1) * 60 * 1000) } with
      status := JobStatus.pending
      attempts := j.attempts + 1 + 1
      error := some (failureMessage (handlerResult "main-posting").error)
      nextRetry := some (t2 + 2 ^ (j.attempts + 1 + 1) * 60 * 1000) }
    (by simpa using hty) hfail (by simp [hatt, hmax])
  rw [h3]
  simp [hatt]

/-- Witness for C3's amended theorem at a concrete failing handler and job. -/
theorem c3_backoff_120_240_failed_witness :
    (runJob failHandler 10 retryJob).status = JobStatus.pending ∧
    (runJob failHandler 10 retryJob).attempts = 1 ∧
    (runJob failHandler 10 retryJob).nextRetry = some (10 + 120 * 1000) ∧
    (runJob failHandler 20 (runJob failHandler 10 retryJob)).status = JobStatus.pending ∧
    (runJob failHandler 20 (runJob failHandler 10 retryJob)).attempts = 2 ∧
    (runJob failHandler 20 (runJob failHandler 10 retryJob)).nextRetry = some (20 + 240 * 1000) ∧
    (runJob failHandler 30 (runJob failHandler 20 (runJob failHandler 10 retryJob))).status = JobStatus.failed ∧
    (runJob failHandler 30 (runJob failHandler 20 (runJob failHandler 10 retryJob))).attempts = 3 ∧
    (runJob failHandler 30 (runJob failHandler 20 (runJob failHandler 10 retryJob))).nextRetry =
      (runJob failHandler 20 (runJob failHandler 10 retryJob)).nextRetry :=
  c3_backoff_120_240_failed failHandler (by decide) 10 20 30 retryJob
    (by decide) (by decide) (by decide)

/-! ## Claim C4 -/

/-- A job whose `type` matches no case of the `executeJob` switch. -/
def unknownJob : QueueJob :=
  { sampleJob with id := "unknown", type := "unknown-type" }

/-- C4 counterexample: a job of unregistered type with the default
`maxAttempts = 3` is NOT failed by one executor cycle — it is back in
`pending` with `attempts = 1` and a retry scheduled 120 time-units out,
so it will be dispatched again. -/
theorem c4_counterexample :
    unknownJob.maxAttempts = 3 ∧
    (runJob failHandler 0 unknownJob).status = JobStatus.pending ∧
    (runJob failHandler 0 unknownJob).status ≠ JobStatus.failed ∧
    (runJob failHandler 0 unknownJob).attempts = 1 ∧
    (runJob failHandler 0 unknownJob).nextRetry = some (120 * 1000) := by
  decide

/-- C4 amended: a job of unregistered type fails its attempt with error
`"Job type not supported"` but goes through the uniform retry policy of
`handleJobFailure`: after one executor cycle it has `attempts = 1`, and it
is `failed` only when `maxAttempts ≤ 1`; with `maxAttempts > 1` (in
particular the default 3) it is `pending` again with
`nextRetry = now + 120` time-units. -/
theorem c4_unregistered_type_is_retried
    (handlerResult : String → ApiResponse Unit) (now : Nat) (j : QueueJob)
    (h1 : j.type ≠ "main-posting") (h2 : j.type ≠ "health-check")
    (h3 : j.type ≠ "cleanup") (h4 : j.type ≠ "backup")
    (hatt : j.attempts = 0) :
    (runJob handlerResult now j).attempts = 1 ∧
    (runJob handlerResult now j).error = some "Job type not supported" ∧
    (1 < j.maxAttempts →
      (runJob handlerResult now j).status = JobStatus.pending ∧
      (runJob handlerResult now j).nextRetry = some (now + 120 * 1000)) ∧
    (j.maxAttempts ≤ 1 →
      (runJob handlerResult now j).status = JobStatus.failed ∧
      (runJob handlerResult now j).nextRetry = j.nextRetry) := by
  have e1 : executeJob handlerResult
      { j with status := JobStatus.processing, attempts := j.attempts + 1 } =
      createApiResponse false ("Unknown job type: " ++ j.type) none
        (some "Job type not supported") := by
    simp [executeJob, h1, h2, h3, h4]
  rw [runJob]
  simp only [e1]
  rw [handleJobFailure]
  by_cases hc : j.maxAttempts ≤ j.attempts + 1
  · simp only [if_pos hc, createApiResponse, failureMessage]
    refine ⟨by simp [hatt], by simp, fun hgt => absurd hc (by omega), fun _ => ?_⟩
    simp
  · simp only [if_neg hc, createApiResponse, failureMessage]
    refine ⟨by simp [hatt], by simp, fun _ => ?_, fun hle => absurd hle (by omega)⟩
    refine ⟨by simp, ?_⟩
    simp [hatt]

/-- Witness for C4's amended theorem at the concrete unregistered job. -/
theorem c4_unregistered_type_is_retried_witness :
    (runJob failHandler 7 unknownJob).attempts = 1 ∧
    (runJob failHandler 7 unknownJob).error = some "Job type not supported" ∧
    (1 < unknownJob.maxAttempts →
      (runJob failHandler 7 unknownJob).status = JobStatus.pending ∧
      (runJob failHandler 7 unknownJob).nextRetry = some (7 + 120 * 1000)) ∧
    (unknownJob.maxAttempts ≤ 1 →
      (runJob failHandler 7 unknownJob).status = JobStatus.failed ∧
      (runJob failHandler 7 unknownJob).nextRetry = unknownJob.nextRetry) :=
  c4_unregistered_type_is_retried failHandler 7 unknownJob
    (by decide) (by decide) (by decide) (by decide) (by decide)

/-! ## Claim C5 -/

/-- C5: evaluating the code at the failing input.  `triggerMainJob` on the
main schedule enqueues a job whose `type` is `'main-posting-manual'` —
`addJob` takes the job type from its first argument, overriding the
`type: 'main-posting'` field of the payload — so the job matches no case
of `executeJob` and every dispatch of it fails; and the operation's
response carries the boolean `true`, not the new job's id. -/
theorem c5_trigger_enqueues_unregistered_type
    (handlerResult : String → ApiResponse Unit) :
    ((triggerMainJob [] "id1" 0).1.map QueueJob.type = ["main-posting-manual"]) ∧
    ((triggerMainJob [] "id1" 0).1.map QueueJob.priority = [Priority.high]) ∧
    ((triggerMainJob [] "id1" 0).1.map
        (fun j => (executeJob handlerResult j).successful) = [false]) ∧
    ((triggerMainJob [] "id1" 0).2.data = some true) := by
  refine ⟨rfl, rfl, ?_, rfl⟩
  simp [triggerMainJob, addJob, mkJob, findInsertPosition, executeJob,
    createApiResponse]

/-! ## Claim C6 -/

/-- C6: for every queue state and jobId, `cancelJob` on an unknown id
returns the not-found error and changes nothing; on a `processing` job it
returns the cannot-cancel-processing error and changes nothing; on a
terminal (`completed`/`failed`) job it returns the already-finished error
and changes nothing; on a `pending` job it succeeds, removes exactly the
jobs bearing that id and no other, and a subsequent `getJob` of that id
returns `none`. -/
theorem c6_cancel_semantics (queue : List QueueJob) (jobId : String) :
    (queue.find? (fun j => j.id == jobId) = none →
      cancelJob queue jobId =
        (queue, createApiResponse false "Job not found" (some false)
          (some "Job ID does not exist"))) ∧
    (∀ job, queue.find? (fun j => j.id == jobId) = some job →
      job.status = JobStatus.processing →
      cancelJob queue jobId =
        (queue, createApiResponse false "Cannot cancel processing job"
          (some false) (some "Job is currently being processed"))) ∧
    (∀ job, queue.find? (fun j => j.id == jobId) = some job →
      (job.status = JobStatus.completed ∨ job.status = JobStatus.failed) →
      cancelJob queue jobId =
        (queue, createApiResponse false "Job already finished" (some false)
          (some "Job has already completed or failed"))) ∧
    (∀ job, queue.find? (fun j => j.id == jobId) = some job →
      job.status = JobStatus.pending →
      (cancelJob queue jobId).2.successful = true ∧
      (cancelJob queue jobId).1 = queue.filter (fun j => !(j.id == jobId)) ∧
      getJob (cancelJob queue jobId).1 jobId = none ∧
      (∀ k ∈ queue, k.id ≠ jobId → k ∈ (cancelJob queue jobId).1) ∧
      (∀ k ∈ (cancelJob queue jobId).1, k.id ≠ jobId)) := by
  refine ⟨?_, ?_, ?_, ?_⟩
  · intro h
    rw [cancelJob, h]
  · intro job hfind hstat
    rw [cancelJob, hfind]
    simp [hstat]
  · intro job hfind hstat
    rw [cancelJob, hfind]
    rcases hstat with h | h
    · simp [h]
    · simp [h]
  · intro job hfind hstat
    have hres : cancelJob queue jobId =
        (queue.filter (fun j => !(j.id == jobId)),
         createApiResponse true "Job cancelled successfully" (some true)
           none) := by
      rw [cancelJob, hfind]
      simp [hstat]
    rw [hres]
    refine ⟨rfl, rfl, ?_, ?_, ?_⟩
    · rw [getJob, List.find?_eq_none]
      intro x hx
      have hx2 := (List.mem_filter.mp hx).2
      simp only [Bool.not_eq_true'] at hx2
      simp [hx2]
    · intro k hk hkid
      exact List.mem_filter.mpr ⟨hk, by simpa using hkid⟩
    · intro k hk
      have hk2 := (List.mem_filter.mp hk).2
      simpa using hk2

/-- Witness for C6: cancelling the concrete pending job `sampleJob`
(id `"j"`) succeeds, empties the queue and makes `getJob` return `none`. -/
theorem c6_cancel_semantics_witness :
    (cancelJob [sampleJob] "j").2.successful = true ∧
    (cancelJob [sampleJob] "j").1 =
      [sampleJob].filter (fun j => !(j.id == "j")) ∧
    getJob (cancelJob [sampleJob] "j").1 "j" = none ∧
    (∀ k ∈ [sampleJob], k.id ≠ "j" → k ∈ (cancelJob [sampleJob] "j").1) ∧
    (∀ k ∈ (cancelJob [sampleJob] "j").1, k.id ≠ "j") :=
  (c6_cancel_semantics [sampleJob] "j").2.2.2 sampleJob (by decide) (by decide)

/-! ## Claim C7 -/

theorem cleanupOldJobs_length_le (now : Nat) (queue : List QueueJob) :
    (cleanupOldJobs now queue).length ≤ 100 := by
  rw [cleanupOldJobs]
  split
  · assumption
  · simp only []
    split
    · exact List.length_take_le 100 _
    · omega

/-- C7: the retention pass that closes every executor dispatch leaves at
most 100 jobs, so the total reported by `getQueueStatus` is at most the
cap of 100 immediately after each processed job; a `processQueue` call
either leaves the queue untouched (no dispatch happened) or ends at or
under the cap. -/
theorem c7_retention_bound (handlerResult : String → ApiResponse Unit)
    (isActive : Bool) (now : Nat) (queue : List QueueJob) :
    (getQueueStatus isActive (cleanupOldJobs now queue)).totalJobs ≤ 100 ∧
    (processQueue handlerResult isActive now queue = queue ∨
      (getQueueStatus isActive
        (processQueue handlerResult isActive now queue)).totalJobs ≤ 100) := by
  constructor
  · exact cleanupOldJobs_length_le now queue
  · rw [processQueue]
    split
    · exact Or.inl rfl
    · split
      · exact Or.inl rfl
      · exact Or.inr (cleanupOldJobs_length_le now _)

/-! ## Claim C8 -/

/-- A pending job created at time `i` (distinct `createdAt` per job). -/
def pendingAt (i : Nat) : QueueJob := { sampleJob with createdAt := i }

/-- 101 pending jobs, enqueued at times 0..100: one more than the cap. -/
def q101 : List QueueJob := (List.range 101).map pendingAt

set_option maxRecDepth 10000 in
/-- C8 counterexample: on a queue of 101 `pending` jobs the retention pass
drops the oldest one — `pendingAt 0` is pending and present before the
pass but absent after it, so pending jobs are NOT always preserved. -/
theorem c8_counterexample :
    pendingAt 0 ∈ q101 ∧ (pendingAt 0).status = JobStatus.pending ∧
    (cleanupOldJobs 0 q101).length = 100 ∧
    pendingAt 0 ∉ cleanupOldJobs 0 q101 := by
  decide

/-- C8 amended: a retention pass preserves every `pending` or `processing`
job, unmodified, PROVIDED the kept set (pending, processing, failed, and
completed jobs younger than 24 hours) is within the 100-job cap; when that
set exceeds the cap, the oldest-by-`createdAt` kept jobs are dropped
regardless of status. -/
theorem c8_retention_keeps_pending (now : Nat) (queue : List QueueJob)
    (hcap : (queue.filter (keepJob now)).length ≤ 100) :
    ∀ j ∈ queue, (j.status = JobStatus.pending ∨
      j.status = JobStatus.processing) → j ∈ cleanupOldJobs now queue := by
  intro j hj hstat
  rw [cleanupOldJobs]
  split
  · exact hj
  · simp only []
    rw [if_neg (by omega)]
    refine List.mem_filter.mpr ⟨hj, ?_⟩
    rcases hstat with h | h
    · simp [keepJob, h]
    · simp [keepJob, h]

/-- Witness for C8's amended theorem on a small within-cap queue. -/
theorem c8_retention_keeps_pending_witness :
    pendingAt 5 ∈ cleanupOldJobs 0 [pendingAt 5, procJob] :=
  c8_retention_keeps_pending 0 [pendingAt 5, procJob] (by decide)
    (pendingAt 5) (by decide) (by decide)

/-! ## Claim C9 -/

/-- C9: for every scheduler state and every string the cron validator
rejects, `updateMainSchedule` returns the invalid-schedule error and
leaves the whole scheduler state — every schedule's expression and armed
timer — exactly as it was: the validation happens before any mutation. -/
theorem c9_invalid_update_leaves_schedule_unchanged
    (validate : String → Bool) (st : CronState) (s : String)
    (hbad : validate s = false) :
    updateMainSchedule validate st s =
      (st, createApiResponse false "Invalid cron schedule" (some false)
        (some "Schedule format is invalid")) := by
  rw [updateMainSchedule]
  simp [hbad]

/-- The initialized main schedule with its timer armed
(cron-jobs.ts `initializeJobs` + `scheduleMainJob`). -/
def mainScheduleInfo : JobInfo :=
  { name := "main-posting", schedule := "0 9 * * *",
    taskActive := true, lastRun := none }

/-- A running scheduler state holding the armed main schedule. -/
def cronSt : CronState := { jobs := [mainScheduleInfo], isRunning := true }

/-- Witness for C9: the invalid expression `"not-a-cron"` (rejected by the
validator) leaves the armed schedule untouched. -/
theorem c9_invalid_update_leaves_schedule_unchanged_witness :
    updateMainSchedule (fun _ => false) cronSt "not-a-cron" =
      (cronSt, createApiResponse false "Invalid cron schedule" (some false)
        (some "Schedule format is invalid")) :=
  c9_invalid_update_leaves_schedule_unchanged (fun _ => false) cronSt
    "not-a-cron" rfl

/-! ## Claim C10 -/

/-- C10: `addJob` succeeds on every type string and every job-data
argument, returning the new job's id, and the created job — present in the
resulting queue — has `attempts = 0`, status `pending`, no `nextRetry`,
and `maxAttempts` equal to the caller's value when non-zero and 3 when the
caller passes 0 or nothing (`jobData.maxAttempts || 3`). -/
theorem c10_addJob_always_succeeds (queue : List QueueJob) (id : String)
    (now : Nat) (jobType : String) (jd : JobData) :
    (addJob queue id now jobType jd).2.successful = true ∧
    (addJob queue id now jobType jd).2.data = some id ∧
    ∃ j, j ∈ (addJob queue id now jobType jd).1 ∧ j.id = id ∧
      j.type = jobType ∧ j.priority = jd.priority ∧ j.attempts = 0 ∧
      j.status = JobStatus.pending ∧ j.nextRetry = none ∧
      j.maxAttempts = (match jd.maxAttempts with
        | some m => if m = 0 then 3 else m
        | none => 3) := by
  refine ⟨rfl, rfl, mkJob id now jobType jd, ?_, rfl, rfl, rfl, rfl, rfl,
    rfl, rfl⟩
  exact (List.mem_insertIdx
    (findInsertPosition_le_length queue (mkJob id now jobType jd).priority)).mpr
    (Or.inl rfl)

end SocialAutoPoster
